import Mathlib

/-
  Verification development for the task-management API.

  The definitions below are a shallow embedding of the repository's
  access-control middleware (src/middleware/permissions.middleware.ts),
  its cache service (the redis-backed cache utility), and the parts of
  the project/task services that the verified properties concern
  (src/services/project.service.ts, src/services/task.service.ts).

  The relational store (prisma) is modelled as in-memory lists of rows;
  the redis cache is modelled as an association list of keyed entries
  together with an `isOpen` connection flag, and every cache primitive
  additionally takes a `fail : Bool` that injects a thrown backend error
  (the code wraps each redis call in try/catch).
-/

namespace TaskAPI

/-- Membership roles, from the prisma `Role` enum
    (ENUM OWNER/ADMIN/MEMBER/VIEWER in project_members). -/
inductive Role where
  | OWNER
  | ADMIN
  | MEMBER
  | VIEWER
deriving DecidableEq, Repr

/-- The `roleHierarchy` object of permissions.middleware.ts
    (VIEWER 0, MEMBER 1, ADMIN 2, OWNER 3). -/
def roleHierarchy : Role → Nat
  | .VIEWER => 0
  | .MEMBER => 1
  | .ADMIN => 2
  | .OWNER => 3

/-- Role names as rendered into response messages. -/
def Role.name : Role → String
  | .OWNER => "OWNER"
  | .ADMIN => "ADMIN"
  | .MEMBER => "MEMBER"
  | .VIEWER => "VIEWER"

/-- Task status enum from the prisma schema. -/
inductive TaskStatus where
  | TODO
  | IN_PROGRESS
  | DONE
  | IN_REVIEW
  | CANCELLED
deriving DecidableEq, Repr

/-- Task priority enum from the prisma schema. -/
inductive Priority where
  | LOW
  | MEDIUM
  | HIGH
  | URGENT
deriving DecidableEq, Repr

/-- A row of the `users` table (the fields the modelled code reads). -/
structure User where
  id : String
  isActive : Bool
deriving DecidableEq, Repr

/-- A row of the `projects` table (the fields the modelled code reads). -/
structure Project where
  id : String
  name : String
  ownerId : String
  isArchived : Bool
deriving DecidableEq, Repr

/-- A row of the `project_members` table; the table carries a unique
    index on (userId, projectId). -/
structure ProjectMember where
  userId : String
  projectId : String
  role : Role
deriving DecidableEq, Repr

/-- A row of the `tasks` table (the fields the modelled code reads). -/
structure Task where
  id : String
  title : String
  status : TaskStatus
  priority : Priority
  projectId : String
  assigneeId : Option String
  createdById : String
  completedAt : Option Nat
deriving DecidableEq, Repr

/-- The relational store, one list per table. -/
structure Store where
  users : List User
  projects : List Project
  members : List ProjectMember
  tasks : List Task
deriving DecidableEq, Repr

/-- The membership rows prisma returns for
    `include: { members: { where: { userId } } }` on one project. -/
def memberRowsFor (db : Store) (userId projectId : String) : List ProjectMember :=
  db.members.filter (fun m => m.userId == userId && m.projectId == projectId)

/-- The user-role computation of requireProjectAccess (permissions
    middleware, the block assigning `userRole`): OWNER when the caller
    owns the project, else the role of the first returned membership
    row, else none. -/
def effectiveRole (db : Store) (userId : String) (project : Project) : Option Role :=
  if project.ownerId == userId then
    some .OWNER
  else
    match memberRowsFor db userId project.id with
    | [] => none
    | m :: _ => some m.role

/-- Outcome of an access middleware run: a 404 response, a 403
    response, or success with the project data attached to the request
    (`req.project`). -/
inductive AccessOutcome where
  | notFound (message : String)
  | forbidden (message : String)
  | ok (id name ownerId : String) (userRole : Role)
deriving DecidableEq, Repr

/-- requireProjectAccess (permissions.middleware.ts): look up the
    project, reject archived projects, compute the caller's role,
    optionally compare against a required role, and otherwise attach
    the project data. -/
def requireProjectAccess (requiredRole : Option Role) (db : Store)
    (userId projectId : String) : AccessOutcome :=
  match db.projects.find? (fun p => p.id == projectId) with
  | none => .notFound "Project not found"
  | some project =>
    if project.isArchived then
      .forbidden "Project is archived"
    else
      match effectiveRole db userId project with
      | none => .forbidden "You do not have access to this project"
      | some userRole =>
        match requiredRole with
        | some required =>
          if roleHierarchy userRole < roleHierarchy required then
            .forbidden (required.name ++ " role or higher required")
          else
            .ok project.id project.name project.ownerId userRole
        | none => .ok project.id project.name project.ownerId userRole

/-- requireTaskAccess (permissions.middleware.ts): look up the task
    with its project, grant access to the task's creator, its assignee,
    the project owner, or any project member, and attach the project
    data with the caller's role defaulted to VIEWER.  The prisma query
    returns the task's project through a foreign key that always
    resolves; the embedding looks the project up in the store and treats
    a dangling projectId like a missing task.  Note: unlike
    requireProjectAccess, this middleware never reads `isArchived`. -/
def requireTaskAccess (db : Store) (userId taskId : String) : AccessOutcome :=
  match db.tasks.find? (fun t => t.id == taskId) with
  | none => .notFound "Task not found"
  | some task =>
    match db.projects.find? (fun p => p.id == task.projectId) with
    | none => .notFound "Task not found"
    | some project =>
      let isTaskCreator := task.createdById == userId
      let isAssignee := task.assigneeId == some userId
      let isProjectOwner := project.ownerId == userId
      let rows := memberRowsFor db userId project.id
      let hasProjectAccess := !rows.isEmpty
      if !isTaskCreator && !isAssignee && !isProjectOwner && !hasProjectAccess then
        .forbidden "You do not have access to this task"
      else
        let userRole : Option Role :=
          if isProjectOwner then
            some .OWNER
          else
            match rows with
            | [] => none
            | m :: _ => some m.role
        .ok project.id project.name project.ownerId (userRole.getD .VIEWER)

/-- A value stored in the cache.  The cache service serializes whole
    objects to JSON; the same `user:projects:` key family is written
    both with project lists (getUserProjects via cacheUserProjects) and
    with single projects (getProjectById via cacheUserProject), so the
    value type covers both shapes next to task details. -/
inductive CacheVal where
  | projList (projects : List Project) (total : Nat)
  | proj (project : Project)
  | task (t : Task)
deriving DecidableEq, Repr

/-- One redis entry: key, JSON value, and the TTL it was set with. -/
structure CacheEntry where
  key : String
  value : CacheVal
  ttl : Nat
deriving DecidableEq, Repr

/-- The redis client state: connection flag (redisClient.isOpen) and
    the stored entries. -/
structure CacheState where
  isOpen : Bool
  entries : List CacheEntry
deriving DecidableEq, Repr

/-- What a healthy backend holds under a key. -/
def CacheState.lookup (st : CacheState) (key : String) : Option CacheEntry :=
  st.entries.find? (fun e => e.key == key)

/-- Prefix test on keys, modelling a redis KEYS glob of the shape
    "pre*" as used by deleteCachedByPattern. -/
def strStarts (pre s : String) : Bool :=
  List.isPrefixOf pre.data s.data

/-- redisClient.get: throws when the backend fails, else returns the
    stored serialized value (or null on a missing key). -/
def redisGet (st : CacheState) (fail : Bool) (key : String) :
    Except String (Option CacheVal) :=
  if fail then .error "redis get failed"
  else .ok ((st.lookup key).map (fun e => e.value))

/-- redisClient.set with EX expiration: throws when the backend fails,
    else overwrites the key with the value and TTL. -/
def redisSet (st : CacheState) (fail : Bool) (key : String) (value : CacheVal)
    (ttl : Nat) : Except String CacheState :=
  if fail then .error "redis set failed"
  else .ok { st with entries := ⟨key, value, ttl⟩ :: st.entries.filter (fun e => e.key != key) }

/-- redisClient.del on one key: throws when the backend fails, else
    removes the key. -/
def redisDel (st : CacheState) (fail : Bool) (key : String) :
    Except String CacheState :=
  if fail then .error "redis del failed"
  else .ok { st with entries := st.entries.filter (fun e => e.key != key) }

/-- redisClient.keys("pre*") followed by redisClient.del(keys): throws
    when the backend fails, else removes every key under the prefix. -/
def redisDelByPattern (st : CacheState) (fail : Bool) (pre : String) :
    Except String CacheState :=
  if fail then .error "redis keys failed"
  else .ok { st with entries := st.entries.filter (fun e => !strStarts pre e.key) }

/-- getCached (cache service): null when the connection is closed;
    otherwise the redis read with any thrown error caught and turned
    into null. -/
def getCached (st : CacheState) (fail : Bool) (key : String) : Option CacheVal :=
  if !st.isOpen then none
  else
    match redisGet st fail key with
    | .error _ => none
    | .ok data => data

/-- setCached (cache service): no-op when the connection is closed;
    otherwise the redis write with any thrown error caught (leaving the
    backend unchanged). -/
def setCached (st : CacheState) (fail : Bool) (key : String) (data : CacheVal)
    (ttl : Nat) : CacheState :=
  if !st.isOpen then st
  else
    match redisSet st fail key data ttl with
    | .error _ => st
    | .ok st' => st'

/-- deleteCached (cache service): no-op when the connection is closed;
    otherwise the redis delete with any thrown error caught. -/
def deleteCached (st : CacheState) (fail : Bool) (key : String) : CacheState :=
  if !st.isOpen then st
  else
    match redisDel st fail key with
    | .error _ => st
    | .ok st' => st'

/-- deleteCachedByPattern (cache service): no-op when the connection is
    closed; otherwise the pattern delete with any thrown error caught. -/
def deleteCachedByPattern (st : CacheState) (fail : Bool) (pre : String) : CacheState :=
  if !st.isOpen then st
  else
    match redisDelByPattern st fail pre with
    | .error _ => st
    | .ok st' => st'

/-- CACHE_KEYS.USER_PROJECTS. -/
def CACHE_KEYS.USER_PROJECTS : String := "user:projects:"

/-- CACHE_KEYS.PROJECT_TASKS. -/
def CACHE_KEYS.PROJECT_TASKS : String := "project:tasks:"

/-- CACHE_KEYS.USER_PROFILE. -/
def CACHE_KEYS.USER_PROFILE : String := "user:profile:"

/-- CACHE_KEYS.TASK_DETAILS. -/
def CACHE_KEYS.TASK_DETAILS : String := "task:details:"

/-- CACHE_TTL.SHORT, in seconds. -/
def CACHE_TTL.SHORT : Nat := 5 * 60

/-- CACHE_TTL.MEDIUM, in seconds. -/
def CACHE_TTL.MEDIUM : Nat := 15 * 60

/-- CACHE_TTL.LONG, in seconds. -/
def CACHE_TTL.LONG : Nat := 60 * 60

/-- cacheUserProjects: store a user's project list under
    user:projects:userId with the MEDIUM TTL. -/
def cacheUserProjects (st : CacheState) (fail : Bool) (userId : String)
    (projects : List Project) (total : Nat) : CacheState :=
  setCached st fail (CACHE_KEYS.USER_PROJECTS ++ userId)
    (.projList projects total) CACHE_TTL.MEDIUM

/-- cacheUserProject: store a single project under the same
    user:projects:userId key with the MEDIUM TTL. -/
def cacheUserProject (st : CacheState) (fail : Bool) (userId : String)
    (project : Project) : CacheState :=
  setCached st fail (CACHE_KEYS.USER_PROJECTS ++ userId) (.proj project)
    CACHE_TTL.MEDIUM

/-- getCachedUserProjects. -/
def getCachedUserProjects (st : CacheState) (fail : Bool) (userId : String) :
    Option CacheVal :=
  getCached st fail (CACHE_KEYS.USER_PROJECTS ++ userId)

/-- cacheTaskDetails: store a task under task:details:taskId with the
    SHORT TTL. -/
def cacheTaskDetails (st : CacheState) (fail : Bool) (taskId : String)
    (t : Task) : CacheState :=
  setCached st fail (CACHE_KEYS.TASK_DETAILS ++ taskId) (.task t) CACHE_TTL.SHORT

/-- getCachedTaskDetails. -/
def getCachedTaskDetails (st : CacheState) (fail : Bool) (taskId : String) :
    Option CacheVal :=
  getCached st fail (CACHE_KEYS.TASK_DETAILS ++ taskId)

/-- invalidateTaskCaches: delete task:details:taskId,
    project:tasks:projectId, and every key under user:projects:.
    The source fires the three deletions with Promise.all; their key
    sets are disjoint, so sequential composition is equivalent. -/
def invalidateTaskCaches (st : CacheState) (fail : Bool)
    (taskId projectId : String) : CacheState :=
  deleteCachedByPattern
    (deleteCached
      (deleteCached st fail (CACHE_KEYS.TASK_DETAILS ++ taskId))
      fail (CACHE_KEYS.PROJECT_TASKS ++ projectId))
    fail CACHE_KEYS.USER_PROJECTS

/-- ApiError (errorHandler middleware): message and HTTP status code. -/
structure ApiError where
  message : String
  statusCode : Nat
deriving DecidableEq, Repr

/-- The owner-or-member access test of getProjectById
    (project.service.ts): the caller owns the project or appears in its
    member list. -/
def projectHasAccess (db : Store) (project : Project) (userId : String) : Bool :=
  project.ownerId == userId
    || db.members.any (fun m => m.projectId == project.id && m.userId == userId)

/-- getProjectById (project.service.ts): first consult the cache under
    user:projects:userId and return any hit as-is; only on a miss load
    the project, run the owner-or-member check, and cache the result
    under the same key.  Returns the response value together with the
    resulting cache state. -/
def getProjectById (db : Store) (st : CacheState) (fail : Bool)
    (projectId userId : String) : Except ApiError CacheVal × CacheState :=
  match getCachedUserProjects st fail userId with
  | some cached => (.ok cached, st)
  | none =>
    match db.projects.find? (fun p => p.id == projectId) with
    | none => (.error ⟨"Project not found", 404⟩, st)
    | some project =>
      if !projectHasAccess db project userId then
        (.error ⟨"You do not have access to this project", 403⟩, st)
      else
        (.ok (.proj project), cacheUserProject st fail userId project)

/-- getTaskById (task.service.ts): consult the cache under
    task:details:taskId and return any hit; on a miss load the task,
    404 when absent, and cache the loaded task. -/
def getTaskById (db : Store) (st : CacheState) (fail : Bool)
    (taskId : String) : Except ApiError CacheVal × CacheState :=
  match getCachedTaskDetails st fail taskId with
  | some cached => (.ok cached, st)
  | none =>
    match db.tasks.find? (fun t => t.id == taskId) with
    | none => (.error ⟨"Task not found", 404⟩, st)
    | some t => (.ok (.task t), cacheTaskDetails st fail taskId t)

/-- UpdateTaskInput: the optional fields of a task update request that
    the modelled code path reads. -/
structure UpdateTaskInput where
  title : Option String
  status : Option TaskStatus
  priority : Option Priority
  assigneeId : Option String
deriving DecidableEq, Repr

/-- The update payload applied by updateTask: spread of the provided
    fields, with completedAt set to now on a transition to DONE,
    cleared on any other provided status, and untouched otherwise. -/
def applyTaskUpdate (t : Task) (input : UpdateTaskInput) (now : Nat) : Task :=
  { t with
    title := input.title.getD t.title
    status := input.status.getD t.status
    priority := input.priority.getD t.priority
    assigneeId := match input.assigneeId with
      | some a => some a
      | none => t.assigneeId
    completedAt := match input.status with
      | some .DONE => some now
      | some _ => none
      | none => t.completedAt }

/-- The assignee validation at the top of updateTask: when an
    assigneeId is provided, an active user with that id must exist. -/
def assigneeValid (db : Store) (input : UpdateTaskInput) : Bool :=
  match input.assigneeId with
  | some a => (db.users.find? (fun u => u.id == a && u.isActive)).isSome
  | none => true

/-- updateTask (task.service.ts): validate the assignee, update the
    task row (a missing row makes prisma throw, surfaced by the catch
    block as a 500 ApiError), then invalidate the task's caches.
    Returns the response, the updated store, and the resulting cache
    state. -/
def updateTask (db : Store) (st : CacheState) (fail : Bool) (taskId : String)
    (input : UpdateTaskInput) (now : Nat) :
    Except ApiError Task × Store × CacheState :=
  if !assigneeValid db input then
    (.error ⟨"Assignee not found or inactive", 400⟩, db, st)
  else
    match db.tasks.find? (fun t => t.id == taskId) with
    | none => (.error ⟨"Failed to update task", 500⟩, db, st)
    | some t =>
      let updated := applyTaskUpdate t input now
      let db' := { db with
        tasks := db.tasks.map (fun x => if x.id == taskId then updated else x) }
      let st' := invalidateTaskCaches st fail taskId updated.projectId
      (.ok updated, db', st')

/-- deleteTask (task.service.ts): load the task, return silently when
    it does not exist, otherwise invalidate its caches and delete the
    row. -/
def deleteTask (db : Store) (st : CacheState) (fail : Bool) (taskId : String) :
    Except ApiError (Store × CacheState) :=
  match db.tasks.find? (fun t => t.id == taskId) with
  | none => .ok (db, st)
  | some t =>
    let st' := invalidateTaskCaches st fail taskId t.projectId
    .ok ({ db with tasks := db.tasks.filter (fun x => x.id != taskId) }, st')

/-- The store with every project's archived flag set to b and all
    other data unchanged; used to state that an access path never
    reads the flag. -/
def setArchivedAll (db : Store) (b : Bool) : Store :=
  { db with projects := db.projects.map (fun p => { p with isArchived := b }) }

theorem find?_map_of_pred_eq {α : Type} (f : α → α) (p : α → Bool) (l : List α)
    (h : ∀ x, p (f x) = p x) :
    (l.map f).find? p = (l.find? p).map f := by
  induction l with
  | nil => rfl
  | cons a l ih =>
    simp only [List.map_cons]
    by_cases ha : p a = true
    · rw [List.find?_cons_of_pos _ (by rw [h]; exact ha), List.find?_cons_of_pos _ ha]
      rfl
    · rw [List.find?_cons_of_neg _ (by rw [h]; exact ha), List.find?_cons_of_neg _ ha, ih]

theorem head?_filter_unique {α : Type} (p : α → Bool) (l : List α) (a : α)
    (ha : a ∈ l) (hpa : p a = true) (huniq : ∀ x ∈ l, p x = true → x = a) :
    (l.filter p).head? = some a := by
  induction l with
  | nil => cases ha
  | cons x l ih =>
    by_cases hx : p x = true
    · rw [List.filter_cons_of_pos hx]
      rw [huniq x (List.mem_cons_self x l) hx]
      rfl
    · rw [List.filter_cons_of_neg (by simpa using hx)]
      rcases List.mem_cons.mp ha with h | h
      · subst h; exact absurd hpa hx
      · exact ih h (fun y hy hpy => huniq y (List.mem_cons_of_mem _ hy) hpy)

theorem find?_update_map (l : List Task) (tid : String) (t t' : Task)
    (hfind : l.find? (fun x => x.id == tid) = some t)
    (hid : (t'.id == tid) = true) :
    (l.map (fun x => if x.id == tid then t' else x)).find? (fun x => x.id == tid)
      = some t' := by
  induction l with
  | nil => simp at hfind
  | cons a l ih =>
    simp only [List.map_cons]
    by_cases ha : (a.id == tid) = true
    · rw [if_pos ha]
      exact List.find?_cons_of_pos _ hid
    · have ha' : (a.id == tid) = false := by simpa using ha
      rw [if_neg (by simpa using ha)]
      rw [List.find?_cons, ha'] at hfind
      rw [List.find?_cons, ha']
      exact ih hfind

theorem isOpen_setCached (st : CacheState) (fail : Bool) (key : String)
    (data : CacheVal) (ttl : Nat) :
    (setCached st fail key data ttl).isOpen = st.isOpen := by
  obtain ⟨o, l⟩ := st
  cases o <;> cases fail <;> rfl

theorem isOpen_invalidateTaskCaches (st : CacheState) (fail : Bool)
    (tid pid : String) :
    (invalidateTaskCaches st fail tid pid).isOpen = st.isOpen := by
  obtain ⟨o, l⟩ := st
  cases o <;> cases fail <;> rfl

theorem lookup_setCached_self (st : CacheState) (key : String) (data : CacheVal)
    (ttl : Nat) (hopen : st.isOpen = true) :
    (setCached st false key data ttl).lookup key = some ⟨key, data, ttl⟩ := by
  obtain ⟨o, l⟩ := st
  have ho : o = true := hopen
  subst ho
  show (List.find? (fun e => e.key == key)
    (⟨key, data, ttl⟩ :: l.filter (fun e => e.key != key))) = some ⟨key, data, ttl⟩
  exact List.find?_cons_of_pos _ (by simp)

theorem lookup_invalidateTaskCaches_taskDetails (st : CacheState)
    (hopen : st.isOpen = true) (tid pid : String) :
    (invalidateTaskCaches st false tid pid).lookup (CACHE_KEYS.TASK_DETAILS ++ tid)
      = none := by
  obtain ⟨o, l⟩ := st
  have ho : o = true := hopen
  subst ho
  show List.find? (fun e => e.key == CACHE_KEYS.TASK_DETAILS ++ tid)
      (((l.filter (fun e => e.key != CACHE_KEYS.TASK_DETAILS ++ tid)).filter
          (fun e => e.key != CACHE_KEYS.PROJECT_TASKS ++ pid)).filter
        (fun e => !strStarts CACHE_KEYS.USER_PROJECTS e.key)) = none
  rw [List.find?_eq_none]
  intro e he
  have h1 := (List.mem_filter.mp (List.mem_filter.mp he).1).1
  have hne := (List.mem_filter.mp h1).2
  simp only [bne, Bool.not_eq_true'] at hne
  simp [hne]

theorem lookup_invalidateTaskCaches_projectTasks (st : CacheState)
    (hopen : st.isOpen = true) (tid pid : String) :
    (invalidateTaskCaches st false tid pid).lookup (CACHE_KEYS.PROJECT_TASKS ++ pid)
      = none := by
  obtain ⟨o, l⟩ := st
  have ho : o = true := hopen
  subst ho
  show List.find? (fun e => e.key == CACHE_KEYS.PROJECT_TASKS ++ pid)
      (((l.filter (fun e => e.key != CACHE_KEYS.TASK_DETAILS ++ tid)).filter
          (fun e => e.key != CACHE_KEYS.PROJECT_TASKS ++ pid)).filter
        (fun e => !strStarts CACHE_KEYS.USER_PROJECTS e.key)) = none
  rw [List.find?_eq_none]
  intro e he
  have hne := (List.mem_filter.mp (List.mem_filter.mp he).1).2
  simp only [bne, Bool.not_eq_true'] at hne
  simp [hne]

theorem lookup_invalidateTaskCaches_userProjects (st : CacheState)
    (hopen : st.isOpen = true) (tid pid key : String)
    (hkey : strStarts CACHE_KEYS.USER_PROJECTS key = true) :
    (invalidateTaskCaches st false tid pid).lookup key = none := by
  obtain ⟨o, l⟩ := st
  have ho : o = true := hopen
  subst ho
  show List.find? (fun e => e.key == key)
      (((l.filter (fun e => e.key != CACHE_KEYS.TASK_DETAILS ++ tid)).filter
          (fun e => e.key != CACHE_KEYS.PROJECT_TASKS ++ pid)).filter
        (fun e => !strStarts CACHE_KEYS.USER_PROJECTS e.key)) = none
  rw [List.find?_eq_none]
  intro e he
  have hpat := (List.mem_filter.mp he).2
  simp only [Bool.not_eq_true'] at hpat
  intro hbeq
  rw [eq_of_beq hbeq, hkey] at hpat
  cases hpat

/-- C1: once the cache holds an entry under user:projects:userId,
    getProjectById returns that entry's value for every requested
    projectId and every store, so on a cache hit the result is
    independent of which project was requested and of the store the
    owner-or-member access check would read; the access check runs only
    on a cache miss. -/
theorem C1_cache_hit_bypasses_access_check
    (st : CacheState) (userId : String) (e : CacheEntry)
    (hopen : st.isOpen = true)
    (hhit : st.lookup (CACHE_KEYS.USER_PROJECTS ++ userId) = some e) :
    ∀ (db : Store) (projectId : String),
      getProjectById db st false projectId userId = (.ok e.value, st) := by
  intro db projectId
  simp [getProjectById, getCachedUserProjects, getCached, redisGet, hopen, hhit]

theorem C1_cache_hit_bypasses_access_check_witness :
    getProjectById ⟨[], [], [], []⟩
      ⟨true, [⟨"user:projects:u1", CacheVal.proj ⟨"p9", "P9", "o9", false⟩, 900⟩]⟩
      false "p2" "u1"
      = (.ok (CacheVal.proj ⟨"p9", "P9", "o9", false⟩),
         ⟨true, [⟨"user:projects:u1", CacheVal.proj ⟨"p9", "P9", "o9", false⟩, 900⟩]⟩) :=
  C1_cache_hit_bypasses_access_check
    ⟨true, [⟨"user:projects:u1", CacheVal.proj ⟨"p9", "P9", "o9", false⟩, 900⟩]⟩
    "u1" ⟨"user:projects:u1", CacheVal.proj ⟨"p9", "P9", "o9", false⟩, 900⟩
    rfl rfl ⟨[], [], [], []⟩ "p2"

/-- C3 (counterexample): the owner of an archived project is denied by
    requireProjectAccess with "Project is archived", so the claim that
    the owner always receives a granted decision with role OWNER fails
    on archived projects. -/
theorem C3_counterexample_archived_owner_denied :
    requireProjectAccess none ⟨[], [⟨"p1", "Proj", "u1", true⟩], [], []⟩ "u1" "p1"
      = .forbidden "Project is archived"
    ∧ requireProjectAccess none ⟨[], [⟨"p1", "Proj", "u1", true⟩], [], []⟩ "u1" "p1"
      ≠ .ok "p1" "Proj" "u1" Role.OWNER := by decide

/-- C3 (amended): for every stored project that is not archived, a
    caller equal to the project's owner receives a granted decision
    with effective role OWNER, for any requiredRole (OWNER has the
    maximal rank). -/
theorem C3_owner_evaluates_to_owner
    (requiredRole : Option Role) (db : Store) (userId projectId : String)
    (project : Project)
    (hfind : db.projects.find? (fun p => p.id == projectId) = some project)
    (harch : project.isArchived = false)
    (howner : project.ownerId = userId) :
    requireProjectAccess requiredRole db userId projectId
      = .ok project.id project.name project.ownerId .OWNER := by
  unfold requireProjectAccess
  rw [hfind]
  simp only [harch, Bool.false_eq_true, if_false]
  unfold effectiveRole
  rw [howner]
  simp only [beq_self_eq_true, if_true]
  cases requiredRole with
  | none => rfl
  | some required => cases required <;> simp [roleHierarchy]

theorem C3_owner_evaluates_to_owner_witness :
    requireProjectAccess (some Role.OWNER)
      ⟨[], [⟨"p1", "Proj", "u1", false⟩], [], []⟩ "u1" "p1"
      = .ok "p1" "Proj" "u1" Role.OWNER :=
  C3_owner_evaluates_to_owner (some Role.OWNER) ⟨[], [⟨"p1", "Proj", "u1", false⟩], [], []⟩
    "u1" "p1" ⟨"p1", "Proj", "u1", false⟩ rfl rfl rfl

/-- C4 (counterexample): with requiredRole = VIEWER on an archived
    project, the owner (effective role OWNER, rank 3, not below rank 0)
    is still denied, so denial is not exactly characterised by
    rank(effectiveRole) < rank(requiredRole). -/
theorem C4_counterexample_denied_without_rank_violation :
    requireProjectAccess (some Role.VIEWER)
      ⟨[], [⟨"p1", "Proj", "u1", true⟩], [], []⟩ "u1" "p1"
      = .forbidden "Project is archived"
    ∧ effectiveRole ⟨[], [⟨"p1", "Proj", "u1", true⟩], [], []⟩ "u1"
        ⟨"p1", "Proj", "u1", true⟩ = some Role.OWNER
    ∧ ¬ (roleHierarchy Role.OWNER < roleHierarchy Role.VIEWER) := by decide

/-- C4 (amended): for every evaluation with a requiredRole on a
    non-archived stored project where the caller has an effective role,
    the decision is the rank denial exactly when
    rank(effectiveRole) < rank(requiredRole), with ranks OWNER=3,
    ADMIN=2, MEMBER=1, VIEWER=0; a MEMBER caller with
    requiredRole=ADMIN is denied (witness). -/
theorem C4_required_role_rank_gate
    (db : Store) (userId projectId : String) (required userRole : Role)
    (project : Project)
    (hfind : db.projects.find? (fun p => p.id == projectId) = some project)
    (harch : project.isArchived = false)
    (hrole : effectiveRole db userId project = some userRole) :
    requireProjectAccess (some required) db userId projectId
        = .forbidden (required.name ++ " role or higher required")
      ↔ roleHierarchy userRole < roleHierarchy required := by
  unfold requireProjectAccess
  rw [hfind]
  simp only [harch, Bool.false_eq_true, if_false, hrole]
  by_cases h : roleHierarchy userRole < roleHierarchy required
  · simp [h]
  · simp [h]

theorem C4_required_role_rank_gate_witness :
    requireProjectAccess (some Role.ADMIN)
      ⟨[], [⟨"p1", "Proj", "u1", false⟩], [⟨"u2", "p1", Role.MEMBER⟩], []⟩ "u2" "p1"
      = .forbidden "ADMIN role or higher required" :=
  (C4_required_role_rank_gate
      ⟨[], [⟨"p1", "Proj", "u1", false⟩], [⟨"u2", "p1", Role.MEMBER⟩], []⟩
      "u2" "p1" Role.ADMIN Role.MEMBER ⟨"p1", "Proj", "u1", false⟩
      rfl rfl rfl).mpr (by decide)

/-- C9: user-project-list entries (both the list shape written by
    getUserProjects and the single-project shape written by
    getProjectById) are stored with the MEDIUM TTL of 15 minutes (900
    seconds), and task-detail entries with the SHORT TTL of 5 minutes
    (300 seconds). -/
theorem C9_ttl_policy
    (st : CacheState) (u tid : String) (ps : List Project) (total : Nat)
    (p : Project) (t : Task)
    (hopen : st.isOpen = true) :
    CACHE_TTL.MEDIUM = 900
    ∧ CACHE_TTL.SHORT = 300
    ∧ (cacheUserProjects st false u ps total).lookup (CACHE_KEYS.USER_PROJECTS ++ u)
        = some ⟨CACHE_KEYS.USER_PROJECTS ++ u, .projList ps total, 900⟩
    ∧ (cacheUserProject st false u p).lookup (CACHE_KEYS.USER_PROJECTS ++ u)
        = some ⟨CACHE_KEYS.USER_PROJECTS ++ u, .proj p, 900⟩
    ∧ (cacheTaskDetails st false tid t).lookup (CACHE_KEYS.TASK_DETAILS ++ tid)
        = some ⟨CACHE_KEYS.TASK_DETAILS ++ tid, .task t, 300⟩ :=
  ⟨rfl, rfl,
    lookup_setCached_self st _ _ _ hopen,
    lookup_setCached_self st _ _ _ hopen,
    lookup_setCached_self st _ _ _ hopen⟩

theorem C9_ttl_policy_witness :
    (cacheTaskDetails ⟨true, []⟩ false "t1"
        ⟨"t1", "T", .TODO, .MEDIUM, "p1", none, "u1", none⟩).lookup
      (CACHE_KEYS.TASK_DETAILS ++ "t1")
      = some ⟨CACHE_KEYS.TASK_DETAILS ++ "t1",
          .task ⟨"t1", "T", .TODO, .MEDIUM, "p1", none, "u1", none⟩, 300⟩ :=
  (C9_ttl_policy ⟨true, []⟩ "u1" "t1" [] 0 ⟨"p1", "Proj", "u1", false⟩
    ⟨"t1", "T", .TODO, .MEDIUM, "p1", none, "u1", none⟩ rfl).2.2.2.2

/-- C10: deleteTask on a taskId that matches no stored task returns
    successfully without any error and leaves both the store and the
    cache exactly unchanged. -/
theorem C10_delete_missing_task_is_noop
    (db : Store) (st : CacheState) (fail : Bool) (taskId : String)
    (h : db.tasks.find? (fun t => t.id == taskId) = none) :
    deleteTask db st fail taskId = .ok (db, st) := by
  unfold deleteTask
  rw [h]

theorem C10_delete_missing_task_is_noop_witness :
    deleteTask ⟨[], [], [], [⟨"t1", "T", .TODO, .MEDIUM, "p1", none, "u1", none⟩]⟩
      ⟨true, []⟩ false "t9"
      = .ok (⟨[], [], [], [⟨"t1", "T", .TODO, .MEDIUM, "p1", none, "u1", none⟩]⟩,
             ⟨true, []⟩) :=
  C10_delete_missing_task_is_noop
    ⟨[], [], [], [⟨"t1", "T", .TODO, .MEDIUM, "p1", none, "u1", none⟩]⟩
    ⟨true, []⟩ false "t9" rfl

/-- C2 (counterexample): a caller who is a MEMBER (not the owner) of an
    archived project is granted task access by requireTaskAccess, so
    the claim that both access checks deny every non-owner on archived
    projects fails for the task-scoped check. -/
theorem C2_counterexample_task_check_ignores_archived :
    requireTaskAccess
      ⟨[], [⟨"p1", "Proj", "u1", true⟩], [⟨"u2", "p1", Role.MEMBER⟩],
        [⟨"t1", "T", .TODO, .MEDIUM, "p1", none, "u1", none⟩]⟩
      "u2" "t1"
      = .ok "p1" "Proj" "u1" .MEMBER := by decide

/-- C2 (amended): requireProjectAccess denies every caller (owner
    included, hence every non-owner) on an archived stored project
    regardless of role rank; requireTaskAccess performs no archived
    check at all: its outcome is unchanged when the archived flag of
    every project is rewritten. -/
theorem C2_archived_denial_scope :
    (∀ (requiredRole : Option Role) (db : Store) (userId projectId : String)
        (project : Project),
        db.projects.find? (fun p => p.id == projectId) = some project →
        project.isArchived = true →
        requireProjectAccess requiredRole db userId projectId
          = .forbidden "Project is archived")
    ∧ (∀ (db : Store) (userId taskId : String) (b : Bool),
        requireTaskAccess (setArchivedAll db b) userId taskId
          = requireTaskAccess db userId taskId) := by
  constructor
  · intro requiredRole db userId projectId project hfind harch
    unfold requireProjectAccess
    rw [hfind]
    simp [harch]
  · intro db userId taskId b
    unfold requireTaskAccess
    cases htask : db.tasks.find? (fun t => t.id == taskId) with
    | none =>
      simp only [show (setArchivedAll db b).tasks = db.tasks from rfl, htask]
    | some task =>
      simp only [show (setArchivedAll db b).tasks = db.tasks from rfl, htask]
      simp only [show (setArchivedAll db b).projects
          = db.projects.map (fun p => { p with isArchived := b }) from rfl,
        find?_map_of_pred_eq (fun p => { p with isArchived := b })
          (fun p => p.id == task.projectId) db.projects (fun x => rfl)]
      cases hproj : db.projects.find? (fun p => p.id == task.projectId) with
      | none => rfl
      | some project => rfl

theorem C2_archived_denial_scope_witness :
    requireProjectAccess (some Role.ADMIN)
      ⟨[], [⟨"p1", "Proj", "u1", true⟩], [⟨"u2", "p1", Role.ADMIN⟩], []⟩ "u2" "p1"
      = .forbidden "Project is archived" :=
  C2_archived_denial_scope.1 (some Role.ADMIN)
    ⟨[], [⟨"p1", "Proj", "u1", true⟩], [⟨"u2", "p1", Role.ADMIN⟩], []⟩
    "u2" "p1" ⟨"p1", "Proj", "u1", true⟩ rfl rfl

/-- C5 (counterexample): a membership row (u2, p1, MEMBER) on an
    archived project yields a forbidden decision with no role rather
    than the membership role, so the claim fails as stated on archived
    projects. -/
theorem C5_counterexample_archived_member :
    requireProjectAccess none
      ⟨[], [⟨"p1", "Proj", "u1", true⟩], [⟨"u2", "p1", Role.MEMBER⟩], []⟩ "u2" "p1"
      = .forbidden "Project is archived"
    ∧ requireProjectAccess none
      ⟨[], [⟨"p1", "Proj", "u1", true⟩], [⟨"u2", "p1", Role.MEMBER⟩], []⟩ "u2" "p1"
      ≠ .ok "p1" "Proj" "u1" Role.MEMBER := by decide

/-- C5 (amended): for every membership row (u, p, r) where u is not the
    owner of the non-archived stored project p, the evaluation grants
    access with effective role r; the unique (userId, projectId) index
    on project_members (assumed as the uniqueness hypothesis) makes r
    the unique such role. -/
theorem C5_membership_role_returned
    (db : Store) (userId projectId : String) (r : Role) (project : Project)
    (hfind : db.projects.find? (fun p => p.id == projectId) = some project)
    (harch : project.isArchived = false)
    (hner : project.ownerId ≠ userId)
    (hmem : (⟨userId, projectId, r⟩ : ProjectMember) ∈ db.members)
    (huniq : ∀ m₁ ∈ db.members, ∀ m₂ ∈ db.members,
        m₁.userId = m₂.userId → m₁.projectId = m₂.projectId → m₁ = m₂) :
    requireProjectAccess none db userId projectId
      = .ok project.id project.name project.ownerId r := by
  have hid : project.id = projectId := by
    have := List.find?_some hfind
    simpa using this
  have hhead : (memberRowsFor db userId project.id).head?
      = some ⟨userId, projectId, r⟩ := by
    unfold memberRowsFor
    rw [hid]
    apply head?_filter_unique _ _ _ hmem (by simp)
    intro x hx hpx
    simp only [Bool.and_eq_true, beq_iff_eq] at hpx
    exact huniq x hx ⟨userId, projectId, r⟩ hmem hpx.1 hpx.2
  have hrole : effectiveRole db userId project = some r := by
    unfold effectiveRole
    rw [if_neg (by simp [hner])]
    cases hrows : memberRowsFor db userId project.id with
    | nil => rw [hrows] at hhead; cases hhead
    | cons m rest =>
      rw [hrows] at hhead
      have : m = ⟨userId, projectId, r⟩ := by
        simpa using hhead
      rw [this]
  unfold requireProjectAccess
  rw [hfind]
  simp [harch, hrole]

theorem C5_membership_role_returned_witness :
    requireProjectAccess none
      ⟨[], [⟨"p1", "Proj", "u1", false⟩], [⟨"u2", "p1", Role.VIEWER⟩], []⟩ "u2" "p1"
      = .ok "p1" "Proj" "u1" Role.VIEWER :=
  C5_membership_role_returned
    ⟨[], [⟨"p1", "Proj", "u1", false⟩], [⟨"u2", "p1", Role.VIEWER⟩], []⟩
    "u2" "p1" Role.VIEWER ⟨"p1", "Proj", "u1", false⟩
    rfl rfl (by decide) (by decide) (by decide)

/-- C6: in the task-scoped check, a caller who is the task's creator or
    assignee is granted access even when they are not the project owner
    and hold no membership row in the task's project, and in that
    fallback case the role attached to the decision is VIEWER. -/
theorem C6_creator_assignee_fallback_viewer
    (db : Store) (userId taskId : String) (task : Task) (project : Project)
    (htask : db.tasks.find? (fun t => t.id == taskId) = some task)
    (hproj : db.projects.find? (fun p => p.id == task.projectId) = some project)
    (hca : task.createdById = userId ∨ task.assigneeId = some userId)
    (hner : project.ownerId ≠ userId)
    (hnomem : memberRowsFor db userId project.id = []) :
    requireTaskAccess db userId taskId
      = .ok project.id project.name project.ownerId Role.VIEWER := by
  unfold requireTaskAccess
  simp only [htask]
  simp only [hproj]
  have howner : (project.ownerId == userId) = false := by simp [hner]
  rcases hca with hc | ha
  · simp [hnomem, howner, hc]
  · simp [hnomem, howner, ha]

theorem C6_creator_assignee_fallback_viewer_witness :
    requireTaskAccess
      ⟨[], [⟨"p1", "Proj", "u1", false⟩], [],
        [⟨"t1", "T", .TODO, .MEDIUM, "p1", none, "u2", none⟩]⟩ "u2" "t1"
      = .ok "p1" "Proj" "u1" Role.VIEWER :=
  C6_creator_assignee_fallback_viewer
    ⟨[], [⟨"p1", "Proj", "u1", false⟩], [],
      [⟨"t1", "T", .TODO, .MEDIUM, "p1", none, "u2", none⟩]⟩
    "u2" "t1" ⟨"t1", "T", .TODO, .MEDIUM, "p1", none, "u2", none⟩
    ⟨"p1", "Proj", "u1", false⟩ rfl rfl (Or.inl rfl) (by decide) rfl

theorem getTaskById_after_miss (db : Store) (st : CacheState) (taskId : String)
    (t : Task) (hopen : st.isOpen = true)
    (hmiss : st.lookup (CACHE_KEYS.TASK_DETAILS ++ taskId) = none)
    (hfind : db.tasks.find? (fun x => x.id == taskId) = some t) :
    (getTaskById db st false taskId).1 = .ok (.task t) := by
  unfold getTaskById getCachedTaskDetails getCached redisGet
  simp [hopen, hmiss, hfind]

/-- C7: after a successful updateTask on task T in project P through an
    open, healthy cache backend, the cache holds no entry under
    task:details:T, none under project:tasks:P, and none under any key
    with the user:projects: prefix, and a subsequent getTaskById(T)
    returns the updated task read from the store, hence not the
    pre-update value whenever the update changed the task. -/
theorem C7_update_invalidates_and_rereads
    (db : Store) (st : CacheState) (taskId : String) (input : UpdateTaskInput)
    (now : Nat) (task : Task)
    (hopen : st.isOpen = true)
    (hvalid : assigneeValid db input = true)
    (hfind : db.tasks.find? (fun t => t.id == taskId) = some task) :
    (updateTask db st false taskId input now).1
        = .ok (applyTaskUpdate task input now)
    ∧ (updateTask db st false taskId input now).2.2.lookup
        (CACHE_KEYS.TASK_DETAILS ++ taskId) = none
    ∧ (updateTask db st false taskId input now).2.2.lookup
        (CACHE_KEYS.PROJECT_TASKS ++ task.projectId) = none
    ∧ (∀ key, strStarts CACHE_KEYS.USER_PROJECTS key = true →
        (updateTask db st false taskId input now).2.2.lookup key = none)
    ∧ (getTaskById (updateTask db st false taskId input now).2.1
          (updateTask db st false taskId input now).2.2 false taskId).1
        = .ok (.task (applyTaskUpdate task input now))
    ∧ (applyTaskUpdate task input now ≠ task →
        (getTaskById (updateTask db st false taskId input now).2.1
            (updateTask db st false taskId input now).2.2 false taskId).1
          ≠ .ok (.task task)) := by
  have hred : updateTask db st false taskId input now
      = (.ok (applyTaskUpdate task input now),
         Store.mk db.users db.projects db.members
           (db.tasks.map (fun x =>
             if x.id == taskId then applyTaskUpdate task input now else x)),
         invalidateTaskCaches st false taskId task.projectId) := by
    unfold updateTask
    rw [hvalid, hfind]
    rfl
  have hid0 := List.find?_some hfind
  have hid' : ((applyTaskUpdate task input now).id == taskId) = true := hid0
  have hfind' := find?_update_map db.tasks taskId task
    (applyTaskUpdate task input now) hfind hid'
  have hopen' : (invalidateTaskCaches st false taskId task.projectId).isOpen = true := by
    rw [isOpen_invalidateTaskCaches]; exact hopen
  have hmiss := lookup_invalidateTaskCaches_taskDetails st hopen taskId task.projectId
  have hget : (getTaskById (updateTask db st false taskId input now).2.1
      (updateTask db st false taskId input now).2.2 false taskId).1
      = .ok (.task (applyTaskUpdate task input now)) := by
    rw [hred]
    exact getTaskById_after_miss _ _ taskId _ hopen' hmiss hfind'
  refine ⟨?_, ?_, ?_, ?_, hget, ?_⟩
  · rw [hred]
  · rw [hred]
    exact lookup_invalidateTaskCaches_taskDetails st hopen taskId task.projectId
  · rw [hred]
    exact lookup_invalidateTaskCaches_projectTasks st hopen taskId task.projectId
  · intro key hkey
    rw [hred]
    exact lookup_invalidateTaskCaches_userProjects st hopen taskId task.projectId key hkey
  · intro hne h
    rw [hget] at h
    exact hne (CacheVal.task.inj (Except.ok.inj h))

theorem C7_update_invalidates_and_rereads_witness :
    (updateTask ⟨[], [], [], [⟨"t1", "T", .TODO, .MEDIUM, "p1", none, "u1", none⟩]⟩
        ⟨true, [⟨"task:details:t1",
            CacheVal.task ⟨"t1", "T", .TODO, .MEDIUM, "p1", none, "u1", none⟩, 300⟩,
          ⟨"user:projects:u1", CacheVal.proj ⟨"p1", "Proj", "u1", false⟩, 900⟩]⟩
        false "t1" ⟨some "T2", none, none, none⟩ 5).2.2.lookup
      (CACHE_KEYS.TASK_DETAILS ++ "t1") = none :=
  (C7_update_invalidates_and_rereads
    ⟨[], [], [], [⟨"t1", "T", .TODO, .MEDIUM, "p1", none, "u1", none⟩]⟩
    ⟨true, [⟨"task:details:t1",
        CacheVal.task ⟨"t1", "T", .TODO, .MEDIUM, "p1", none, "u1", none⟩, 300⟩,
      ⟨"user:projects:u1", CacheVal.proj ⟨"p1", "Proj", "u1", false⟩, 900⟩]⟩
    "t1" ⟨some "T2", none, none, none⟩ 5
    ⟨"t1", "T", .TODO, .MEDIUM, "p1", none, "u1", none⟩
    rfl rfl rfl).2.1

/-- C8: cache backend failures never propagate: when the backend throws
    (fail = true) the raw redis read is an error, yet getCached returns
    null (a miss), setCached, deleteCached and deleteCachedByPattern
    return normally leaving the cache state unchanged, the same holds
    when the connection is closed, and a store read such as getTaskById
    still serves the task from the store through the failing cache. -/
theorem C8_cache_errors_swallowed
    (st : CacheState) (b : Bool) (key pre tid : String) (data : CacheVal)
    (ttl : Nat) (db : Store) :
    redisGet st true key = .error "redis get failed"
    ∧ getCached st true key = none
    ∧ getCached ⟨false, st.entries⟩ b key = none
    ∧ setCached st true key data ttl = st
    ∧ setCached ⟨false, st.entries⟩ b key data ttl = ⟨false, st.entries⟩
    ∧ deleteCached st true key = st
    ∧ deleteCached ⟨false, st.entries⟩ b key = ⟨false, st.entries⟩
    ∧ deleteCachedByPattern st true pre = st
    ∧ deleteCachedByPattern ⟨false, st.entries⟩ b pre = ⟨false, st.entries⟩
    ∧ (∀ t : Task, db.tasks.find? (fun x => x.id == tid) = some t →
        (getTaskById db st true tid).1 = .ok (.task t)) := by
  obtain ⟨o, l⟩ := st
  refine ⟨rfl, ?_, rfl, ?_, rfl, ?_, rfl, ?_, rfl, ?_⟩
  · cases o <;> rfl
  · cases o <;> rfl
  · cases o <;> rfl
  · cases o <;> rfl
  · intro t hfind
    unfold getTaskById getCachedTaskDetails getCached redisGet
    cases o <;> simp [hfind]

theorem C8_cache_errors_swallowed_witness :
    (getTaskById ⟨[], [], [], [⟨"t1", "T", .TODO, .MEDIUM, "p1", none, "u1", none⟩]⟩
        ⟨true, []⟩ true "t1").1
      = .ok (.task ⟨"t1", "T", .TODO, .MEDIUM, "p1", none, "u1", none⟩) :=
  (C8_cache_errors_swallowed ⟨true, []⟩ false "k" "p" "t1"
      (.proj ⟨"p1", "Proj", "u1", false⟩) 0
      ⟨[], [], [], [⟨"t1", "T", .TODO, .MEDIUM, "p1", none, "u1", none⟩]⟩).2.2.2.2.2.2.2.2.2
    ⟨"t1", "T", .TODO, .MEDIUM, "p1", none, "u1", none⟩ rfl

end TaskAPI
